import Mathlib

/-!
Shallow embedding of `src/lib/mplayerManager.ts` (class `MPlayerManager`).

The manager owns a single child process handle (`mplayerProc`), a readiness
flag (`ready`), and a logging callback.  Operations attach `data`/`exit`/
`error` listeners to the process, feed each newline-split line of every
incoming chunk to a caller-supplied classifier, and settle a promise.

Modelling choices:
  * Node event listeners are modelled as lists of tags (one tag per distinct
    listener closure in the source), kept in registration order; `emit`
    iterates over a snapshot of the list, so event delivery folds the handler
    over the listener list as it was when the event fired.
  * Promises are `Option` slots: `none` is unsettled, and `settleFirst`
    makes the first settlement win (later `resolve`/`reject` calls are
    ignored), which is exactly the JS promise guarantee.
  * `chunk.split('\n')` is embedded by `splitNl` on the character list.
  * Thrown exceptions (`this.mplayerProc.stdin` when `mplayerProc` is
    `undefined`) are `Except.error`, carrying the state at the throw.
-/

/-- Tags identifying the distinct listener closures that the source ever
registers on the child process or its stdio streams. -/
inductive ListenerTag where
  /-- `onData` of `doOperation` (attached to both stdout and stderr). -/
  | opData
  /-- `onExit` of `doOperation`. -/
  | opExit
  /-- `onError` of `doOperation`. -/
  | opError
  /-- `onData` of `readyMPlayer` (attached to stdout only). -/
  | readyData
  /-- `onExit` of `readyMPlayer`. -/
  | readyExit
  /-- `onError` of `readyMPlayer`. -/
  | readyError
  /-- the persistent `exit` listener of `spawnMPlayer` that logs and runs
  `handleProcCompletion`. -/
  | procCompletionExit
  /-- the persistent `error` listener of `spawnMPlayer` that logs and runs
  `handleProcCompletion`. -/
  | procCompletionError
  /-- the `exit` listener registered by `shutdown`. -/
  | shutdownExit
  /-- the `error` listener registered by `shutdown`. -/
  | shutdownError
deriving DecidableEq, Repr

/-- The child process handle (`proc.ChildProcess`): an identity, a liveness
flag, the listener lists of the process object and of its stdout/stderr
streams, and the data written to its stdin. -/
structure ProcHandle where
  id : Nat
  alive : Bool
  stdoutListeners : List ListenerTag
  stderrListeners : List ListenerTag
  exitListeners : List ListenerTag
  errorListeners : List ListenerTag
  stdinData : List String
deriving DecidableEq, Repr

/-- The mutable fields of class `MPlayerManager`: `mplayerProc`, `ready`,
plus the lines reported through the injected `log` callback. -/
structure MgrState where
  mplayerProc : Option ProcHandle
  ready : Bool
  logLines : List String
deriving DecidableEq, Repr

/-- A JS rejection reason: a plain string (the template-built messages of the
source), an `Error` object surfaced by an `error` event, or an arbitrary
value passed by the caller's classifier to `reject`. -/
inductive JsReason (E : Type) where
  | str (s : String)
  | errObj (msg : String)
  | value (e : E)
deriving DecidableEq, Repr

/-- The settled state of the promise returned by `doOperation`. -/
inductive OpOutcome (T E : Type) where
  | resolved (v : T)
  | rejected (r : JsReason E)
deriving DecidableEq, Repr

/-- One call the classifier (`processData`) makes into the wrapped
`resolve`/`reject` callbacks while handling a single line. -/
inductive Verdict (T E : Type) where
  | resolveV (v : T)
  | rejectV (e : E)
deriving DecidableEq, Repr

/-- A classifier: for each line, the sequence of `resolve`/`reject` calls it
makes (empty list = no verdict on this line). -/
def Classifier (T E : Type) : Type := String → List (Verdict T E)

/-- Per-operation state of one `doOperation` call: its promise slot, whether
its `setTimeout` timer is still pending, and the `processData` closure. -/
structure OpState (T E : Type) where
  classify : Classifier T E
  promise : Option (OpOutcome T E)
  timerArmed : Bool

/-- The whole event-driven world: the manager state plus the promise slots of
the (at most one, in the scenarios modelled here) in-flight `readyMPlayer`
call, `doOperation` call and `shutdown` call. -/
structure World (T E : Type) where
  mgr : MgrState
  readyPromise : Option (Except (JsReason E) Unit)
  op : Option (OpState T E)
  shutdownPromise : Option (Except String Unit)

/-- JS `chunk.split('\n')` on the character list: splits at every newline and
keeps empty pieces, so a chunk ending in a newline yields a trailing empty
string. -/
def splitNl : List Char → List (List Char)
  | [] => [[]]
  | c :: rest =>
    if c = '\n' then [] :: splitNl rest
    else
      match splitNl rest with
      | [] => [[c]]
      | l :: ls => (c :: l) :: ls

/-- `chunk.split('\n')` lifted to `String`. -/
def jsSplitLines (s : String) : List String :=
  (splitNl s.data).map String.mk

/-- Whether the first list is a prefix of the second. -/
def isPrefixChars : List Char → List Char → Bool
  | [], _ => true
  | _ :: _, [] => false
  | p :: ps, c :: cs => p = c && isPrefixChars ps cs

/-- Whether `pat` occurs as a contiguous sublist. -/
def containsSubChars (pat : List Char) : List Char → Bool
  | [] => pat.isEmpty
  | c :: cs => isPrefixChars pat (c :: cs) || containsSubChars pat cs

/-- JS `s.includes(pat)`: `true` iff `pat` occurs as a substring of `s`. -/
def containsSub (s pat : String) : Bool :=
  containsSubChars pat.data s.data

/-- First settlement wins: settling an already settled promise slot is a
no-op. -/
def settleFirst {α : Type} : Option α → α → Option α
  | some x, _ => some x
  | none, y => some y

/-- Append a line to the log (the injected `log` callback). -/
def logW {T E : Type} (line : String) (w : World T E) : World T E :=
  { w with mgr := { w.mgr with logLines := w.mgr.logLines ++ [line] } }

/-- Replace the current process handle (mutation of a field of the live
handle). -/
def setProc {T E : Type} (w : World T E) (h : ProcHandle) : World T E :=
  { w with mgr := { w.mgr with mplayerProc := some h } }

/-- The outcome a single `resolve`/`reject` call would settle the operation
promise with. -/
def verdictOutcome {T E : Type} : Verdict T E → OpOutcome T E
  | .resolveV v => .resolved v
  | .rejectV e => .rejected (.value e)

/-- Apply the classifier's `resolve`/`reject` calls for one line, in order,
to the operation's promise slot (only the first call on an unsettled promise
has effect). -/
def settleOpCalls {T E : Type} (calls : List (Verdict T E)) (w : World T E) :
    World T E :=
  match w.op with
  | none => w
  | some os =>
    { w with
      op := some { os with
        promise := calls.foldl (fun p v => settleFirst p (verdictOutcome v)) os.promise } }

/-- The rejection message of the source's `onExit` handlers:
`MPLAYER exited (code - signal)` with the reported code and signal
interpolated. -/
def exitMessage (code : Int) (signal : String) : String :=
  "MPLAYER exited (" ++ toString code ++ " - " ++ signal ++ ")"

/-- `exec(args)`: logs, then writes the space-joined, newline-terminated
command to `this.mplayerProc.stdin`.  There is no guard on `mplayerProc`:
when it is `undefined`, reading `.stdin` of `undefined` throws, modelled as
`Except.error` carrying the state at the throw (the log line has already
been emitted). -/
def execCmd {T E : Type} (args : List String) (w : World T E) :
    Except (World T E) (World T E) :=
  let cmd := String.intercalate " " args
  let w := logW ("Executing: " ++ "'" ++ cmd ++ "'") w
  match w.mgr.mplayerProc with
  | none => .error w
  | some h => .ok (setProc w { h with stdinData := h.stdinData ++ [cmd ++ "\n"] })

/-- `exec` as a plain state transformer (the world after the call, whether or
not it threw). -/
def execRun {T E : Type} (args : List String) (w : World T E) : World T E :=
  match execCmd args w with
  | .ok w2 => w2
  | .error w2 => w2

/-- The `cleanup` closure of `doOperation`: if `mplayerProc` exists, remove
this operation's `data` listeners from stdout and stderr and its
`exit`/`error` listeners from the process; then clear the timer. -/
def opCleanup {T E : Type} (w : World T E) : World T E :=
  let w :=
    match w.mgr.mplayerProc with
    | none => w
    | some h =>
      setProc w { h with
        stdoutListeners := h.stdoutListeners.erase .opData
        stderrListeners := h.stderrListeners.erase .opData
        exitListeners := h.exitListeners.erase .opExit
        errorListeners := h.errorListeners.erase .opError }
  match w.op with
  | none => w
  | some os => { w with op := some { os with timerArmed := false } }

/-- The line loop of `doOperation`'s `onData`: for each line of the split
chunk, log it and run the classifier; the first line on which the classifier
calls `resolve` or `reject` sets `done`, so the loop runs `cleanup` and
breaks, processing no further line. -/
def opDataLoop {T E : Type} (cl : Classifier T E) :
    List String → World T E → World T E
  | [], w => w
  | line :: rest, w =>
    let w := logW ("data received: " ++ line) w
    match cl line with
    | [] => opDataLoop cl rest w
    | calls => opCleanup (settleOpCalls calls w)

/-- `doOperation`'s `onExit`: clear the timer and reject with the
exit-message string carrying the reported code and signal.  (It does not run
`cleanup`.) -/
def opOnExit {T E : Type} (code : Int) (signal : String) (w : World T E) :
    World T E :=
  match w.op with
  | none => w
  | some os =>
    { w with
      op := some { os with
        timerArmed := false
        promise := settleFirst os.promise (.rejected (.str (exitMessage code signal))) } }

/-- `doOperation`'s `onError`: clear the timer and reject with the error
object.  (It does not run `cleanup`.) -/
def opOnError {T E : Type} (err : String) (w : World T E) : World T E :=
  match w.op with
  | none => w
  | some os =>
    { w with
      op := some { os with
        timerArmed := false
        promise := settleFirst os.promise (.rejected (.errObj err)) } }

/-- The `setTimeout` callback of `doOperation` firing: it only rejects with
the string `Timed out`; it removes no listeners and runs no cleanup (the
timer itself is spent). -/
def opOnTimeout {T E : Type} (w : World T E) : World T E :=
  match w.op with
  | none => w
  | some os =>
    { w with
      op := some { os with
        timerArmed := false
        promise := settleFirst os.promise (.rejected (.str "Timed out")) } }

/-- `handleProcCompletion` of `spawnMPlayer`: if a handle exists, remove all
listeners from the process and its stdio streams and clear `mplayerProc`;
in every case clear `ready`. -/
def handleProcCompletionW {T E : Type} (w : World T E) : World T E :=
  let w :=
    match w.mgr.mplayerProc with
    | none => w
    | some _ => { w with mgr := { w.mgr with mplayerProc := none } }
  { w with mgr := { w.mgr with ready := false } }

/-- Remove one listener tag from the stdout `data` listeners of the current
handle (a `removeListener` call). -/
def removeStdoutListener {T E : Type} (t : ListenerTag) (w : World T E) :
    World T E :=
  match w.mgr.mplayerProc with
  | none => w
  | some h => setProc w { h with stdoutListeners := h.stdoutListeners.erase t }

/-- Remove one listener tag from the `exit` listeners of the current
handle. -/
def removeExitListener {T E : Type} (t : ListenerTag) (w : World T E) :
    World T E :=
  match w.mgr.mplayerProc with
  | none => w
  | some h => setProc w { h with exitListeners := h.exitListeners.erase t }

/-- Remove one listener tag from the `error` listeners of the current
handle. -/
def removeErrorListener {T E : Type} (t : ListenerTag) (w : World T E) :
    World T E :=
  match w.mgr.mplayerProc with
  | none => w
  | some h => setProc w { h with errorListeners := h.errorListeners.erase t }

/-- The line loop of `readyMPlayer`'s `onData`: log each line; on the first
line containing the startup signature `CPLAYER: MPlayer`, remove the
temporary readiness listeners (stdout `data`, `exit`, `error`), log
`MPLAYER ready`, set `ready`, resolve the readiness promise and break. -/
def readyScanLoop {T E : Type} : List String → World T E → World T E
  | [], w => w
  | line :: rest, w =>
    let w := logW ("data received: " ++ line) w
    if containsSub line "CPLAYER: MPlayer" then
      let w := removeStdoutListener .readyData w
      let w := removeExitListener .readyExit w
      let w := removeErrorListener .readyError w
      let w := logW "MPLAYER ready" w
      { w with
        mgr := { w.mgr with ready := true }
        readyPromise := settleFirst w.readyPromise (.ok ()) }
    else readyScanLoop rest w

/-- Dispatch one stdout/stderr `data` listener on a chunk. -/
def runDataListener {T E : Type} (chunk : String) (t : ListenerTag)
    (w : World T E) : World T E :=
  match t with
  | .readyData => readyScanLoop (jsSplitLines chunk) w
  | .opData =>
    match w.op with
    | none => w
    | some os => opDataLoop os.classify (jsSplitLines chunk) w
  | _ => w

/-- Dispatch one `exit` listener with the reported code and signal. -/
def runExitListener {T E : Type} (code : Int) (signal : String)
    (t : ListenerTag) (w : World T E) : World T E :=
  match t with
  | .procCompletionExit =>
    handleProcCompletionW
      (logW ("MPLAYER exit: " ++ toString code ++ " " ++ signal) w)
  | .readyExit =>
    { w with
      readyPromise := settleFirst w.readyPromise (.error (.str (exitMessage code signal))) }
  | .opExit => opOnExit code signal w
  | .shutdownExit => { w with shutdownPromise := settleFirst w.shutdownPromise (.ok ()) }
  | _ => w

/-- Dispatch one `error` listener with the surfaced error. -/
def runErrorListener {T E : Type} (err : String) (t : ListenerTag)
    (w : World T E) : World T E :=
  match t with
  | .procCompletionError =>
    handleProcCompletionW (logW ("MPLAYER error: " ++ err) w)
  | .readyError =>
    { w with readyPromise := settleFirst w.readyPromise (.error (.errObj err)) }
  | .opError => opOnError err w
  | .shutdownError =>
    { w with shutdownPromise := settleFirst w.shutdownPromise (.error err) }
  | _ => w

/-- Deliver a `data` event on stdout: `emit` calls every listener registered
on stdout at the moment the event fires (a snapshot), in registration
order. -/
def deliverStdoutData {T E : Type} (chunk : String) (w : World T E) :
    World T E :=
  match w.mgr.mplayerProc with
  | none => w
  | some h => h.stdoutListeners.foldl (fun w2 t => runDataListener chunk t w2) w

/-- Deliver a `data` event on stderr (snapshot of the stderr listeners). -/
def deliverStderrData {T E : Type} (chunk : String) (w : World T E) :
    World T E :=
  match w.mgr.mplayerProc with
  | none => w
  | some h => h.stderrListeners.foldl (fun w2 t => runDataListener chunk t w2) w

/-- Deliver the process `exit` event (snapshot of the exit listeners). -/
def deliverExit {T E : Type} (code : Int) (signal : String) (w : World T E) :
    World T E :=
  match w.mgr.mplayerProc with
  | none => w
  | some h => h.exitListeners.foldl (fun w2 t => runExitListener code signal t w2) w

/-- Deliver the process `error` event (snapshot of the error listeners). -/
def deliverError {T E : Type} (err : String) (w : World T E) : World T E :=
  match w.mgr.mplayerProc with
  | none => w
  | some h => h.errorListeners.foldl (fun w2 t => runErrorListener err t w2) w

/-- The fixed startup argument list `MPLAYER_ARGS`. -/
def MPLAYER_ARGS : List String :=
  ["-msgmodule", "-msglevel", "all=6:statusline=4", "-idle", "-slave", "-fs",
   "-noborder"]

/-- The default operation timeout `DEFAULT_OP_TIMEOUT` (ms). -/
def DEFAULT_OP_TIMEOUT : Nat := 2000

/-- The handle produced by `proc.spawn` inside `spawnMPlayer`, after the
listener registrations of `spawnMPlayer` ran: first the persistent
`exit`/`error` listeners (log + `handleProcCompletion`), then the temporary
readiness listeners — `onData` on stdout only, `onExit` and `onError` on the
process. -/
def freshHandle (newId : Nat) : ProcHandle :=
  { id := newId
    alive := true
    stdoutListeners := [.readyData]
    stderrListeners := []
    exitListeners := [.procCompletionExit, .readyExit]
    errorListeners := [.procCompletionError, .readyError]
    stdinData := [] }

/-- `spawnMPlayer`'s synchronous effect: install a fresh handle carrying the
listeners of `freshHandle` (the readiness flag is whatever it was — the
source never writes `ready` here). -/
def spawnStep {T E : Type} (newId : Nat) (w : World T E) : World T E :=
  { w with mgr := { w.mgr with mplayerProc := some (freshHandle newId) } }

/-- `shutdown()`: with no handle, return an immediately resolved promise and
touch nothing else.  With a handle, register the one-shot `exit`/`error`
listeners, send `kill()`, and (the kill terminating the process) deliver the
resulting `exit` event with the code and signal the OS reports. -/
def shutdownCall {T E : Type} (code : Int) (signal : String) (w : World T E) :
    World T E :=
  let w := { w with shutdownPromise := none }
  match w.mgr.mplayerProc with
  | none => { w with shutdownPromise := some (.ok ()) }
  | some h =>
    let w := setProc w { h with
      exitListeners := h.exitListeners ++ [.shutdownExit]
      errorListeners := h.errorListeners ++ [.shutdownError] }
    deliverExit code signal w

/-- `readyMPlayer()`: a fresh promise; if `ready` and a handle exists,
`resolve()` fires — but there is no `return`, so the function always goes on
to `this.shutdown().then(spawnMPlayer, spawnMPlayer)`: whatever the shutdown
outcome, a new process is spawned (the kill of a live handle reporting the
given code and signal). -/
def readyMPlayerCall {T E : Type} (newId : Nat) (code : Int) (signal : String)
    (w : World T E) : World T E :=
  let w := { w with readyPromise := none }
  let w :=
    if w.mgr.ready && w.mgr.mplayerProc.isSome then
      { w with readyPromise := settleFirst w.readyPromise (.ok ()) }
    else w
  spawnStep newId (shutdownCall code signal w)

/-- The stdio targets `doOperation` subscribes to. -/
inductive SubTarget where
  | stdoutData
  | stderrData
  | exitEvt
  | errorEvt
deriving DecidableEq, Repr

/-- An observable action of `doOperation`'s post-readiness body: one listener
subscription, or one command emission through the `exec` callback handed to
`op`. -/
inductive OpAction where
  | subscribe (t : SubTarget)
  | emitCmd (args : List String)
deriving DecidableEq, Repr

/-- The listener registrations of `doOperation` (source order: stdout `data`,
stderr `data`, `exit`, `error`). -/
def attachOpListeners {T E : Type} (w : World T E) : World T E :=
  match w.mgr.mplayerProc with
  | none => w
  | some h =>
    setProc w { h with
      stdoutListeners := h.stdoutListeners ++ [.opData]
      stderrListeners := h.stderrListeners ++ [.opData]
      exitListeners := h.exitListeners ++ [.opExit]
      errorListeners := h.errorListeners ++ [.opError] }

/-- The body of `doOperation` run after `readyMPlayer` resolved: create the
operation state (timer armed iff `timeout` is nonzero), attach the four
listeners, then invoke `op`, which sends each of its commands through the
`exec` callback.  The returned trace records the body's observable actions in
execution order: the four subscriptions, then one emission per command. -/
def doOperationBody {T E : Type} (cl : Classifier T E) (timeout : Nat)
    (cmds : List (List String)) (w : World T E) :
    World T E × List OpAction :=
  let w := { w with op := some { classify := cl, promise := none, timerArmed := timeout != 0 } }
  let w := attachOpListeners w
  let w := cmds.foldl (fun w2 args => execRun args w2) w
  (w,
    [OpAction.subscribe .stdoutData, OpAction.subscribe .stderrData,
     OpAction.subscribe .exitEvt, OpAction.subscribe .errorEvt] ++
      cmds.map OpAction.emitCmd)

/-! ### Basic projection lemmas -/

@[simp]
theorem logW_mplayerProc {T E : Type} (s : String) (w : World T E) :
    (logW s w).mgr.mplayerProc = w.mgr.mplayerProc := rfl

@[simp]
theorem logW_ready {T E : Type} (s : String) (w : World T E) :
    (logW s w).mgr.ready = w.mgr.ready := rfl

@[simp]
theorem logW_logLines {T E : Type} (s : String) (w : World T E) :
    (logW s w).mgr.logLines = w.mgr.logLines ++ [s] := rfl

@[simp]
theorem logW_op {T E : Type} (s : String) (w : World T E) :
    (logW s w).op = w.op := rfl

@[simp]
theorem logW_readyPromise {T E : Type} (s : String) (w : World T E) :
    (logW s w).readyPromise = w.readyPromise := rfl

@[simp]
theorem setProc_mplayerProc {T E : Type} (w : World T E) (h : ProcHandle) :
    (setProc w h).mgr.mplayerProc = some h := rfl

@[simp]
theorem setProc_ready {T E : Type} (w : World T E) (h : ProcHandle) :
    (setProc w h).mgr.ready = w.mgr.ready := rfl

@[simp]
theorem setProc_logLines {T E : Type} (w : World T E) (h : ProcHandle) :
    (setProc w h).mgr.logLines = w.mgr.logLines := rfl

@[simp]
theorem setProc_op {T E : Type} (w : World T E) (h : ProcHandle) :
    (setProc w h).op = w.op := rfl

@[simp]
theorem setProc_readyPromise {T E : Type} (w : World T E) (h : ProcHandle) :
    (setProc w h).readyPromise = w.readyPromise := rfl

@[simp]
theorem settleFirst_none {α : Type} (y : α) : settleFirst none y = some y := rfl

@[simp]
theorem settleFirst_some {α : Type} (x y : α) :
    settleFirst (some x) y = some x := rfl

/-- Once a promise slot is settled, folding further settlement attempts over
it changes nothing. -/
theorem foldl_settleFirst_some {α β : Type} (f : β → α) (l : List β) (x : α) :
    l.foldl (fun p v => settleFirst p (f v)) (some x) = some x := by
  induction l with
  | nil => rfl
  | cons b bs ih => simpa using ih

@[simp]
theorem settleOpCalls_mgr {T E : Type} (calls : List (Verdict T E))
    (w : World T E) : (settleOpCalls calls w).mgr = w.mgr := by
  unfold settleOpCalls
  cases w.op <;> rfl

theorem settleOpCalls_op {T E : Type} (calls : List (Verdict T E))
    (w : World T E) (os : OpState T E) (hop : w.op = some os) :
    (settleOpCalls calls w).op
      = some { os with
          promise := calls.foldl (fun p v => settleFirst p (verdictOutcome v)) os.promise } := by
  unfold settleOpCalls
  rw [hop]

/-! ### Concrete scenario states -/

/-- A live, ready handle as it exists after readiness detection and before
any operation: only the persistent `spawnMPlayer` listeners remain. -/
def idleReadyHandle : ProcHandle :=
  { id := 1
    alive := true
    stdoutListeners := []
    stderrListeners := []
    exitListeners := [.procCompletionExit]
    errorListeners := [.procCompletionError]
    stdinData := [] }

/-- A world in which mplayer is up and marked ready, with no operation in
flight. -/
def idleReadyWorld : World Nat String :=
  { mgr := { mplayerProc := some idleReadyHandle, ready := true, logLines := [] }
    readyPromise := none
    op := none
    shutdownPromise := none }

/-- A world with no process handle at all (fresh manager, or after an
exit/error cleared the handle). -/
def noProcWorld : World Nat String :=
  { mgr := { mplayerProc := none, ready := false, logLines := [] }
    readyPromise := none
    op := none
    shutdownPromise := none }

/-- A classifier that resolves with `42` on the first line containing
`ANS_volume=` (end-to-end scenario B of the specification). -/
def volumeClassifier : Classifier Nat String := fun line =>
  if containsSub line "ANS_volume=" then [.resolveV 42] else []

/-- The world of a `get_property volume` operation in flight: the body of
`doOperation` has run against the ready world (listeners attached, timer
armed, command sent). -/
def volumeOpWorld : World Nat String :=
  (doOperationBody volumeClassifier 2000 [["get_property", "volume"]]
    idleReadyWorld).1

/-! ### C1: the ready fast path of `readyMPlayer` -/

/-- C1 (code bug): in a state where a live handle (id 1) exists and `ready`
is `true`, `readyMPlayer` does resolve its promise immediately, but — the
fast path having no `return` after `resolve()` — it still runs
`shutdown().then(spawnMPlayer, spawnMPlayer)`: the existing process is
killed (its exit is logged) and a brand-new process (id 2) is spawned with
`ready` cleared, contradicting the claim that no new spawn and no shutdown
of the existing process occur and that the same handle is kept. -/
theorem readyMPlayer_fastpath_still_respawns :
    (readyMPlayerCall 2 0 "SIGTERM" idleReadyWorld).readyPromise = some (.ok ())
      ∧ (readyMPlayerCall 2 0 "SIGTERM" idleReadyWorld).mgr.mplayerProc.map
          ProcHandle.id = some 2
      ∧ (readyMPlayerCall 2 0 "SIGTERM" idleReadyWorld).mgr.ready = false
      ∧ (readyMPlayerCall 2 0 "SIGTERM" idleReadyWorld).mgr.logLines
          = ["MPLAYER exit: 0 SIGTERM"]
      ∧ idleReadyWorld.mgr.mplayerProc.map ProcHandle.id = some 1 := by
  refine ⟨rfl, rfl, rfl, rfl, rfl⟩

/-! ### C8: `shutdown` with no handle -/

/-- C8: when no process handle exists, `shutdown()` returns
`Promise.resolve()`: it completes immediately with success and the whole
world apart from the fresh shutdown promise — in particular the supervisor
state, so no process is spawned — is unchanged. -/
theorem shutdown_no_handle_immediate {T E : Type} (code : Int)
    (signal : String) (w : World T E) (hnone : w.mgr.mplayerProc = none) :
    shutdownCall code signal w = { w with shutdownPromise := some (.ok ()) } := by
  unfold shutdownCall
  simp only [hnone]

/-- Witness for C8 at the concrete empty-manager world. -/
theorem shutdown_no_handle_immediate_witness :
    shutdownCall (T := Nat) (E := String) 0 "SIGTERM" noProcWorld
      = { noProcWorld with shutdownPromise := some (.ok ()) } :=
  shutdown_no_handle_immediate 0 "SIGTERM" noProcWorld rfl

/-! ### C3: `exec` -/

/-- C3 (counterexample): with no process handle, `exec(['pause'])` is not a
silent no-op: it logs the command and then throws (reading `.stdin` of
`undefined`), modelled as `Except.error` carrying the state at the throw. -/
theorem exec_no_handle_throws :
    execCmd (T := Nat) (E := String) ["pause"] noProcWorld
      = .error (logW "Executing: 'pause'" noProcWorld) := rfl

/-- C3 (amended): `exec` first logs the command; then, if a handle exists,
it writes the arguments joined by single spaces and terminated by a newline
to the process's stdin; if no handle exists, it throws instead of being a
silent no-op. -/
theorem exec_writes_or_throws {T E : Type} (args : List String)
    (w : World T E) :
    (∀ h, w.mgr.mplayerProc = some h →
      execCmd args w
        = .ok (setProc
            (logW ("Executing: " ++ "'" ++ String.intercalate " " args ++ "'") w)
            { h with stdinData := h.stdinData ++ [String.intercalate " " args ++ "\n"] }))
      ∧ (w.mgr.mplayerProc = none →
          execCmd args w
            = .error (logW ("Executing: " ++ "'" ++ String.intercalate " " args ++ "'") w)) := by
  constructor
  · intro h hsome
    unfold execCmd
    simp only [logW_mplayerProc, hsome]
  · intro hnone
    unfold execCmd
    simp only [logW_mplayerProc, hnone]

/-- Witness for C3's amended theorem: both branches at concrete inputs. -/
theorem exec_writes_or_throws_witness :
    execCmd (T := Nat) (E := String) ["get_property", "volume"] idleReadyWorld
        = .ok (setProc
            (logW "Executing: 'get_property volume'" idleReadyWorld)
            { idleReadyHandle with stdinData := ["get_property volume\n"] })
      ∧ execCmd (T := Nat) (E := String) ["pause", "1"] noProcWorld
          = .error (logW "Executing: 'pause 1'" noProcWorld) :=
  ⟨(exec_writes_or_throws ["get_property", "volume"] idleReadyWorld).1
      idleReadyHandle rfl,
    (exec_writes_or_throws ["pause", "1"] noProcWorld).2 rfl⟩

/-! ### C2: the timeout path of `doOperation` -/

/-- C2 (counterexample): in the in-flight `get_property volume` operation,
when the timer fires before any verdict the promise is rejected with
`Timed out`, but the operation's `data` listener is still registered on
stdout (indeed the whole manager state is untouched), and a chunk injected
after the timeout is still split, logged and fed to the classifier —
contradicting the claim that the cleanup runs and no listeners attached by
the operation remain registered. -/
theorem doOperation_timeout_leaves_listeners :
    ((opOnTimeout volumeOpWorld).op.map OpState.promise
        = some (some (.rejected (.str "Timed out"))))
      ∧ (opOnTimeout volumeOpWorld).mgr = volumeOpWorld.mgr
      ∧ ((opOnTimeout volumeOpWorld).mgr.mplayerProc.map
          ProcHandle.stdoutListeners = some [ListenerTag.opData])
      ∧ ((deliverStdoutData "ANS_volume=42" (opOnTimeout volumeOpWorld)).mgr.logLines
          = ["Executing: 'get_property volume'", "data received: ANS_volume=42"])
      ∧ ((deliverStdoutData "ANS_volume=42" (opOnTimeout volumeOpWorld)).op.map
          OpState.promise = some (some (.rejected (.str "Timed out")))) := by
  refine ⟨rfl, rfl, rfl, rfl, rfl⟩

/-- C2 (amended): if the timer fires before a classifier verdict and before
any process exit/error, the operation settles with the `Timed out` failure,
but no cleanup runs on this path: the timer callback only rejects, so the
manager state — including every `data`/`exit`/`error` listener this
operation registered — is left exactly as it was; only the operation's
promise and spent-timer flag change. -/
theorem doOperation_timeout_rejects_without_cleanup {T E : Type}
    (w : World T E) (os : OpState T E) (hop : w.op = some os)
    (hpend : os.promise = none) :
    (opOnTimeout w).mgr = w.mgr
      ∧ (opOnTimeout w).op
          = some { os with
              promise := some (.rejected (.str "Timed out"))
              timerArmed := false } := by
  unfold opOnTimeout
  rw [hop]
  simp [hpend]

/-- Witness for C2's amended theorem at the concrete in-flight operation. -/
theorem doOperation_timeout_rejects_without_cleanup_witness :
    (opOnTimeout volumeOpWorld).mgr = volumeOpWorld.mgr
      ∧ (opOnTimeout volumeOpWorld).op
          = some { classify := volumeClassifier
                   promise := some (.rejected (.str "Timed out"))
                   timerArmed := false } :=
  doOperation_timeout_rejects_without_cleanup volumeOpWorld
    { classify := volumeClassifier, promise := none, timerArmed := true }
    rfl rfl

/-! ### The `onData` line loop of `doOperation` -/

/-- Logging a list of received lines in order (the effect of the loop on
lines that produce no verdict). -/
def logAll {T E : Type} (lines : List String) (w : World T E) : World T E :=
  lines.foldl (fun w2 l => logW ("data received: " ++ l) w2) w

@[simp]
theorem logAll_mplayerProc {T E : Type} (lines : List String) (w : World T E) :
    (logAll lines w).mgr.mplayerProc = w.mgr.mplayerProc := by
  induction lines generalizing w with
  | nil => rfl
  | cons l ls ih => simpa [logAll] using ih (logW ("data received: " ++ l) w)

@[simp]
theorem logAll_ready {T E : Type} (lines : List String) (w : World T E) :
    (logAll lines w).mgr.ready = w.mgr.ready := by
  induction lines generalizing w with
  | nil => rfl
  | cons l ls ih => simpa [logAll] using ih (logW ("data received: " ++ l) w)

@[simp]
theorem logAll_op {T E : Type} (lines : List String) (w : World T E) :
    (logAll lines w).op = w.op := by
  induction lines generalizing w with
  | nil => rfl
  | cons l ls ih => simpa [logAll] using ih (logW ("data received: " ++ l) w)

@[simp]
theorem logAll_readyPromise {T E : Type} (lines : List String) (w : World T E) :
    (logAll lines w).readyPromise = w.readyPromise := by
  induction lines generalizing w with
  | nil => rfl
  | cons l ls ih => simpa [logAll] using ih (logW ("data received: " ++ l) w)

@[simp]
theorem logAll_logLines {T E : Type} (lines : List String) (w : World T E) :
    (logAll lines w).mgr.logLines
      = w.mgr.logLines ++ lines.map (fun l => "data received: " ++ l) := by
  induction lines generalizing w with
  | nil => simp [logAll]
  | cons l ls ih =>
    simp only [logAll, List.foldl_cons] at ih ⊢
    rw [ih (logW ("data received: " ++ l) w)]
    simp

/-- Lines on which the classifier makes no call only get logged: the loop
walks past them. -/
theorem opDataLoop_no_verdict_prefix {T E : Type} (cl : Classifier T E)
    (pre rest : List String) (w : World T E)
    (hpre : ∀ l ∈ pre, cl l = []) :
    opDataLoop cl (pre ++ rest) w = opDataLoop cl rest (logAll pre w) := by
  induction pre generalizing w with
  | nil => rfl
  | cons l ls ih =>
    have hl : cl l = [] := hpre l (by simp)
    have hls : ∀ x ∈ ls, cl x = [] := fun x hx => hpre x (by simp [hx])
    simp only [List.cons_append, opDataLoop, hl]
    exact ih (logW ("data received: " ++ l) w) hls

/-- On the first line with a verdict, the loop logs the line, applies the
classifier's calls to the promise, runs `cleanup` and breaks. -/
theorem opDataLoop_verdict_head {T E : Type} (cl : Classifier T E)
    (line : String) (post : List String) (w : World T E) (v : Verdict T E)
    (calls : List (Verdict T E)) (hline : cl line = v :: calls) :
    opDataLoop cl (line :: post) w
      = opCleanup (settleOpCalls (v :: calls)
          (logW ("data received: " ++ line) w)) := by
  simp only [opDataLoop, hline]

@[simp]
theorem opCleanup_ready {T E : Type} (w : World T E) :
    (opCleanup w).mgr.ready = w.mgr.ready := by
  unfold opCleanup
  cases hw : w.mgr.mplayerProc <;> cases ho : w.op <;> simp [hw, ho]

@[simp]
theorem opCleanup_logLines {T E : Type} (w : World T E) :
    (opCleanup w).mgr.logLines = w.mgr.logLines := by
  unfold opCleanup
  cases hw : w.mgr.mplayerProc <;> cases ho : w.op <;> simp [hw, ho]

theorem opCleanup_mplayerProc {T E : Type} (w : World T E) (h : ProcHandle)
    (hproc : w.mgr.mplayerProc = some h) :
    (opCleanup w).mgr.mplayerProc
      = some { h with
          stdoutListeners := h.stdoutListeners.erase .opData
          stderrListeners := h.stderrListeners.erase .opData
          exitListeners := h.exitListeners.erase .opExit
          errorListeners := h.errorListeners.erase .opError } := by
  unfold opCleanup
  cases ho : w.op <;> simp [hproc, ho]

theorem opCleanup_op {T E : Type} (w : World T E) (os : OpState T E)
    (hop : w.op = some os) :
    (opCleanup w).op = some { os with timerArmed := false } := by
  unfold opCleanup
  cases hw : w.mgr.mplayerProc <;> simp [hw, hop]

/-! ### C5: first classifier verdict -/

/-- C5: for an in-flight operation (its `data` listener on stdout and
stderr, its `exit`/`error` listeners and the persistent `spawnMPlayer`
listeners on the process) receiving a chunk whose split is
`pre ++ line :: post`, where the classifier makes no call on any line of
`pre` and its first call on `line` is `v`: the lines are processed in
order, the operation settles with exactly `verdictOutcome v` (any further
calls on the same line are ignored by the promise), no line of `post` is
processed — the log grows by exactly the lines of `pre` and `line` — and
the operation's listeners and timer are torn down. -/
theorem doOperation_first_verdict_settles_once {T E : Type} (w : World T E)
    (os : OpState T E) (h : ProcHandle) (chunk line : String)
    (pre post : List String) (v : Verdict T E) (calls : List (Verdict T E))
    (hproc : w.mgr.mplayerProc = some h)
    (hstdout : h.stdoutListeners = [.opData])
    (hstderr : h.stderrListeners = [.opData])
    (hexit : h.exitListeners = [.procCompletionExit, .opExit])
    (herror : h.errorListeners = [.procCompletionError, .opError])
    (hop : w.op = some os) (hpend : os.promise = none)
    (hsplit : jsSplitLines chunk = pre ++ line :: post)
    (hpre : ∀ l ∈ pre, os.classify l = [])
    (hline : os.classify line = v :: calls) :
    (deliverStdoutData chunk w).op
        = some { os with promise := some (verdictOutcome v), timerArmed := false }
      ∧ (deliverStdoutData chunk w).mgr.logLines
          = w.mgr.logLines ++ (pre ++ [line]).map (fun l => "data received: " ++ l)
      ∧ (deliverStdoutData chunk w).mgr.mplayerProc
          = some { h with
              stdoutListeners := []
              stderrListeners := []
              exitListeners := [.procCompletionExit]
              errorListeners := [.procCompletionError] }
      ∧ (deliverStdoutData chunk w).mgr.ready = w.mgr.ready := by
  have hd : deliverStdoutData chunk w
      = opDataLoop os.classify (jsSplitLines chunk) w := by
    unfold deliverStdoutData
    rw [hproc]
    simp only [hstdout, List.foldl_cons, List.foldl_nil, runDataListener, hop]
  rw [hd, hsplit, opDataLoop_no_verdict_prefix os.classify pre (line :: post) w hpre,
    opDataLoop_verdict_head os.classify line post _ v calls hline]
  have hop1 : (logW ("data received: " ++ line) (logAll pre w)).op = some os := by
    simp [hop]
  have hproc1 : (logW ("data received: " ++ line) (logAll pre w)).mgr.mplayerProc
      = some h := by
    simp [hproc]
  have hsettleOp : (settleOpCalls (v :: calls)
      (logW ("data received: " ++ line) (logAll pre w))).op
        = some { os with promise := some (verdictOutcome v) } := by
    rw [settleOpCalls_op _ _ os hop1, hpend]
    simp [foldl_settleFirst_some]
  have hsettleMgr : (settleOpCalls (v :: calls)
      (logW ("data received: " ++ line) (logAll pre w))).mgr
        = (logW ("data received: " ++ line) (logAll pre w)).mgr :=
    settleOpCalls_mgr _ _
  refine ⟨?_, ?_, ?_, ?_⟩
  · rw [opCleanup_op _ _ (hsettleOp.trans (by rfl))]
  · rw [opCleanup_logLines, hsettleMgr]
    simp
  · rw [opCleanup_mplayerProc _ h (by rw [hsettleMgr]; exact hproc1)]
    rw [hstdout, hstderr, hexit, herror]
    rfl
  · rw [opCleanup_ready, hsettleMgr]
    simp

/-- The handle of the in-flight volume operation: the idle ready handle with
the operation's listeners attached and the command already written. -/
def volumeOpHandle : ProcHandle :=
  { idleReadyHandle with
      stdoutListeners := [.opData]
      stderrListeners := [.opData]
      exitListeners := [.procCompletionExit, .opExit]
      errorListeners := [.procCompletionError, .opError]
      stdinData := ["get_property volume\n"] }

/-- Witness for C5: end-to-end scenario B — the chunk
`junk\nANS_volume=42\nrest` against the in-flight volume operation resolves
with `42` on the second line, does not process `rest`, and cleans up. -/
theorem doOperation_first_verdict_settles_once_witness :
    (deliverStdoutData "junk\nANS_volume=42\nrest" volumeOpWorld).op
        = some { classify := volumeClassifier
                 promise := some (verdictOutcome (.resolveV 42))
                 timerArmed := false }
      ∧ (deliverStdoutData "junk\nANS_volume=42\nrest" volumeOpWorld).mgr.logLines
          = volumeOpWorld.mgr.logLines
              ++ (["junk"] ++ ["ANS_volume=42"]).map (fun l => "data received: " ++ l)
      ∧ (deliverStdoutData "junk\nANS_volume=42\nrest" volumeOpWorld).mgr.mplayerProc
          = some { volumeOpHandle with
              stdoutListeners := []
              stderrListeners := []
              exitListeners := [.procCompletionExit]
              errorListeners := [.procCompletionError] }
      ∧ (deliverStdoutData "junk\nANS_volume=42\nrest" volumeOpWorld).mgr.ready
          = volumeOpWorld.mgr.ready := by
  have := doOperation_first_verdict_settles_once volumeOpWorld
    { classify := volumeClassifier, promise := none, timerArmed := true }
    volumeOpHandle
    "junk\nANS_volume=42\nrest" "ANS_volume=42" ["junk"] ["rest"]
    (.resolveV 42) [] rfl rfl rfl rfl rfl rfl rfl rfl
    (by intro l hl; simp only [List.mem_singleton] at hl; subst hl; rfl) rfl
  exact this

/-! ### C4: process exit/error during an in-flight operation -/

@[simp]
theorem handleProcCompletionW_mplayerProc {T E : Type} (w : World T E) :
    (handleProcCompletionW w).mgr.mplayerProc = none := by
  unfold handleProcCompletionW
  cases hw : w.mgr.mplayerProc <;> simp [hw]

@[simp]
theorem handleProcCompletionW_ready {T E : Type} (w : World T E) :
    (handleProcCompletionW w).mgr.ready = false := by
  unfold handleProcCompletionW
  cases hw : w.mgr.mplayerProc <;> simp [hw]

@[simp]
theorem handleProcCompletionW_op {T E : Type} (w : World T E) :
    (handleProcCompletionW w).op = w.op := by
  unfold handleProcCompletionW
  cases hw : w.mgr.mplayerProc <;> simp [hw]

@[simp]
theorem handleProcCompletionW_logLines {T E : Type} (w : World T E) :
    (handleProcCompletionW w).mgr.logLines = w.mgr.logLines := by
  unfold handleProcCompletionW
  cases hw : w.mgr.mplayerProc <;> simp [hw]

@[simp]
theorem handleProcCompletionW_readyPromise {T E : Type} (w : World T E) :
    (handleProcCompletionW w).readyPromise = w.readyPromise := by
  unfold handleProcCompletionW
  cases hw : w.mgr.mplayerProc <;> simp [hw]

@[simp]
theorem opOnExit_mgr {T E : Type} (code : Int) (signal : String)
    (w : World T E) : (opOnExit code signal w).mgr = w.mgr := by
  unfold opOnExit
  cases hw : w.op <;> simp [hw]

@[simp]
theorem opOnError_mgr {T E : Type} (err : String) (w : World T E) :
    (opOnError err w).mgr = w.mgr := by
  unfold opOnError
  cases hw : w.op <;> simp [hw]

@[simp]
theorem opOnTimeout_mgr {T E : Type} (w : World T E) :
    (opOnTimeout w).mgr = w.mgr := by
  unfold opOnTimeout
  cases hw : w.op <;> simp [hw]

theorem opOnExit_op {T E : Type} (code : Int) (signal : String)
    (w : World T E) (os : OpState T E) (hop : w.op = some os)
    (hpend : os.promise = none) :
    (opOnExit code signal w).op
      = some { os with
          promise := some (.rejected (.str (exitMessage code signal)))
          timerArmed := false } := by
  unfold opOnExit
  rw [hop]
  simp [hpend]

theorem opOnError_op {T E : Type} (err : String) (w : World T E)
    (os : OpState T E) (hop : w.op = some os) (hpend : os.promise = none) :
    (opOnError err w).op
      = some { os with
          promise := some (.rejected (.errObj err))
          timerArmed := false } := by
  unfold opOnError
  rw [hop]
  simp [hpend]

/-- C4: if the process exits (or errors) while an operation is in flight and
before any verdict, then — the persistent `spawnMPlayer` completion listener
firing first, followed by the operation's `onExit`/`onError` — the operation
settles with a failure carrying exactly the exit code and signal (or the
error) the process reported, the timer is cleared, and the handle with every
listener registered by the operation is cleared from the supervisor, so no
`data`/`exit`/`error` listener of the operation remains registered. -/
theorem op_exit_or_error_rejects_and_cleans {T E : Type} (w : World T E)
    (h : ProcHandle) (os : OpState T E)
    (hproc : w.mgr.mplayerProc = some h)
    (hop : w.op = some os) (hpend : os.promise = none) :
    (∀ (code : Int) (signal : String),
      h.exitListeners = [.procCompletionExit, .opExit] →
        (deliverExit code signal w).op
            = some { os with
                promise := some (.rejected (.str (exitMessage code signal)))
                timerArmed := false }
          ∧ (deliverExit code signal w).mgr.mplayerProc = none
          ∧ (deliverExit code signal w).mgr.ready = false
          ∧ (deliverExit code signal w).mgr.logLines
              = w.mgr.logLines ++ ["MPLAYER exit: " ++ toString code ++ " " ++ signal])
      ∧ (∀ err : String,
          h.errorListeners = [.procCompletionError, .opError] →
            (deliverError err w).op
                = some { os with
                    promise := some (.rejected (.errObj err))
                    timerArmed := false }
              ∧ (deliverError err w).mgr.mplayerProc = none
              ∧ (deliverError err w).mgr.ready = false
              ∧ (deliverError err w).mgr.logLines
                  = w.mgr.logLines ++ ["MPLAYER error: " ++ err]) := by
  constructor
  · intro code signal hexit
    have hd : deliverExit code signal w
        = opOnExit code signal (handleProcCompletionW
            (logW ("MPLAYER exit: " ++ toString code ++ " " ++ signal) w)) := by
      unfold deliverExit
      rw [hproc]
      simp only [hexit, List.foldl_cons, List.foldl_nil, runExitListener]
    rw [hd]
    have hop2 : (handleProcCompletionW
        (logW ("MPLAYER exit: " ++ toString code ++ " " ++ signal) w)).op
          = some os := by simp [hop]
    refine ⟨opOnExit_op _ _ _ os hop2 hpend, ?_, ?_, ?_⟩ <;> simp
  · intro err herror
    have hd : deliverError err w
        = opOnError err (handleProcCompletionW
            (logW ("MPLAYER error: " ++ err) w)) := by
      unfold deliverError
      rw [hproc]
      simp only [herror, List.foldl_cons, List.foldl_nil, runErrorListener]
    rw [hd]
    have hop2 : (handleProcCompletionW
        (logW ("MPLAYER error: " ++ err) w)).op = some os := by simp [hop]
    refine ⟨opOnError_op _ _ os hop2 hpend, ?_, ?_, ?_⟩ <;> simp

/-- Witness for C4: the process dying with code 1 / SIGKILL (and, on the
error side, an `ENOENT` error) during the in-flight volume operation. -/
theorem op_exit_or_error_rejects_and_cleans_witness :
    ((deliverExit 1 "SIGKILL" volumeOpWorld).op
        = some { classify := volumeClassifier
                 promise := some (.rejected (.str (exitMessage 1 "SIGKILL")))
                 timerArmed := false }
      ∧ (deliverExit 1 "SIGKILL" volumeOpWorld).mgr.mplayerProc = none
      ∧ (deliverExit 1 "SIGKILL" volumeOpWorld).mgr.ready = false
      ∧ (deliverExit 1 "SIGKILL" volumeOpWorld).mgr.logLines
          = volumeOpWorld.mgr.logLines ++ ["MPLAYER exit: " ++ toString (1 : Int) ++ " " ++ "SIGKILL"])
      ∧ ((deliverError "ENOENT" volumeOpWorld).op
          = some { classify := volumeClassifier
                   promise := some (.rejected (.errObj "ENOENT"))
                   timerArmed := false }
        ∧ (deliverError "ENOENT" volumeOpWorld).mgr.mplayerProc = none
        ∧ (deliverError "ENOENT" volumeOpWorld).mgr.ready = false
        ∧ (deliverError "ENOENT" volumeOpWorld).mgr.logLines
            = volumeOpWorld.mgr.logLines ++ ["MPLAYER error: " ++ "ENOENT"]) := by
  have := op_exit_or_error_rejects_and_cleans volumeOpWorld volumeOpHandle
    { classify := volumeClassifier, promise := none, timerArmed := true }
    rfl rfl rfl
  exact ⟨this.1 1 "SIGKILL" rfl, this.2 "ENOENT" rfl⟩

/-! ### C7: listener subscription precedes command emission -/

/-- C7: in the post-readiness body of `doOperation`, every listener
subscription occurs strictly before every command emission through the
`exec` callback handed to `op` — in the recorded action trace, every
`subscribe` index is smaller than every `emitCmd` index. -/
theorem doOperation_subscribes_before_emitting {T E : Type}
    (cl : Classifier T E) (timeout : Nat) (cmds : List (List String))
    (w : World T E) (i j : Nat) (t : SubTarget) (args : List String)
    (hi : (doOperationBody cl timeout cmds w).2[i]? = some (.subscribe t))
    (hj : (doOperationBody cl timeout cmds w).2[j]? = some (.emitCmd args)) :
    i < j := by
  have htrace : (doOperationBody cl timeout cmds w).2
      = [OpAction.subscribe .stdoutData, OpAction.subscribe .stderrData,
         OpAction.subscribe .exitEvt, OpAction.subscribe .errorEvt]
          ++ cmds.map OpAction.emitCmd := rfl
  rw [htrace] at hi hj
  have hilt : i < 4 := by
    by_contra hge
    push_neg at hge
    rw [List.getElem?_append_right (by simpa using hge)] at hi
    simp [List.getElem?_map] at hi
  have hjge : 4 ≤ j := by
    by_contra hlt
    push_neg at hlt
    rw [List.getElem?_append_left (by simpa using hlt)] at hj
    interval_cases j <;> simp at hj
  omega

/-- Witness for C7: in the volume operation's body, the first subscription
(index 0) precedes the first emission (index 4). -/
theorem doOperation_subscribes_before_emitting_witness : (0 : Nat) < 4 :=
  doOperation_subscribes_before_emitting volumeClassifier 2000
    [["get_property", "volume"]] idleReadyWorld 0 4 .stdoutData
    ["get_property", "volume"] rfl rfl

/-! ### C9: readiness scans stdout only -/

/-- The world right after `spawnMPlayer` ran from an empty manager: a fresh
handle (id 1) with the readiness listeners attached. -/
def spawnedWorld : World Nat String := spawnStep 1 noProcWorld

/-- C9: the readiness `data` listener of `readyMPlayer` is attached to stdout
only — a freshly spawned handle has no stderr listeners at all, delivering
any chunk (in particular one containing the startup signature) on stderr to
a handle without data listeners changes nothing, and on the concrete
freshly-spawned world the very chunk that marks the process ready and
resolves the readiness promise when it arrives on stdout leaves the world
untouched — still not ready, readiness promise still pending — when it
arrives on stderr. -/
theorem readiness_ignores_stderr {T E : Type} :
    (∀ n : Nat, (freshHandle n).stderrListeners = [])
      ∧ (∀ (w : World T E) (h : ProcHandle) (chunk : String),
          w.mgr.mplayerProc = some h → h.stderrListeners = [] →
          deliverStderrData chunk w = w)
      ∧ (deliverStdoutData "CPLAYER: MPlayer 1.5\n" spawnedWorld).mgr.ready = true
      ∧ (deliverStdoutData "CPLAYER: MPlayer 1.5\n" spawnedWorld).readyPromise
          = some (.ok ())
      ∧ deliverStderrData "CPLAYER: MPlayer 1.5\n" spawnedWorld = spawnedWorld
      ∧ spawnedWorld.mgr.ready = false
      ∧ spawnedWorld.readyPromise = none := by
  refine ⟨fun n => rfl, ?_, rfl, rfl, rfl, rfl, rfl⟩
  intro w h chunk hproc hstderr
  unfold deliverStderrData
  rw [hproc]
  simp [hstderr]

/-- Witness for C9: the generic stderr no-op conjunct applied to the
concrete spawned world. -/
theorem readiness_ignores_stderr_witness :
    deliverStderrData "AO: [alsa] CPLAYER: MPlayer noise" spawnedWorld
      = spawnedWorld :=
  readiness_ignores_stderr.2.1 spawnedWorld (freshHandle 1)
    "AO: [alsa] CPLAYER: MPlayer noise" rfl rfl

/-! ### Split lemmas for trailing newlines -/

theorem splitNl_ne_nil (s : List Char) : splitNl s ≠ [] := by
  induction s with
  | nil => simp [splitNl]
  | cons c cs ih =>
    unfold splitNl
    by_cases hc : c = '\n'
    · simp [hc]
    · rw [if_neg hc]
      rcases h : splitNl cs with _ | ⟨l, ls⟩
      · exact absurd h ih
      · simp

/-- Splitting a chunk that ends in a newline yields the split of the rest
followed by one trailing empty piece. -/
theorem splitNl_append_newline (s : List Char) :
    splitNl (s ++ ['\n']) = splitNl s ++ [[]] := by
  induction s with
  | nil => rfl
  | cons c cs ih =>
    by_cases hc : c = '\n'
    · subst hc
      simp [splitNl, ih]
    · rcases h : splitNl cs with _ | ⟨l, ls⟩
      · exact absurd h (splitNl_ne_nil cs)
      · simp [splitNl, if_neg hc, ih, h]

/-- `jsSplitLines` of a chunk ending in a newline: the split of the rest
plus a trailing empty string. -/
theorem jsSplitLines_append_newline (s : List Char) :
    jsSplitLines (String.mk (s ++ ['\n']))
      = jsSplitLines (String.mk s) ++ [""] := by
  show (splitNl (s ++ ['\n'])).map String.mk
      = (splitNl s).map String.mk ++ [""]
  rw [splitNl_append_newline]
  simp

/-! ### C10: a chunk ending in a newline yields a trailing empty line -/

/-- When no line of the chunk draws a classifier call, the loop logs every
line and leaves everything else untouched. -/
theorem opDataLoop_all_no_verdict {T E : Type} (cl : Classifier T E)
    (lines : List String) (w : World T E)
    (hall : ∀ l ∈ lines, cl l = []) :
    opDataLoop cl lines w = logAll lines w := by
  have := opDataLoop_no_verdict_prefix cl lines [] w hall
  simpa using this

/-- When no line of the chunk contains the startup signature, the readiness
scan logs every line and leaves everything else untouched. -/
theorem readyScanLoop_no_signature {T E : Type} (lines : List String)
    (w : World T E)
    (hno : ∀ l ∈ lines, containsSub l "CPLAYER: MPlayer" = false) :
    readyScanLoop lines w = logAll lines w := by
  induction lines generalizing w with
  | nil => rfl
  | cons l ls ih =>
    have hl : containsSub l "CPLAYER: MPlayer" = false := hno l (by simp)
    have hls : ∀ x ∈ ls, containsSub x "CPLAYER: MPlayer" = false :=
      fun x hx => hno x (by simp [hx])
    simp only [readyScanLoop, hl, Bool.false_eq_true, if_false]
    rw [ih (logW ("data received: " ++ l) w) hls]
    rfl

/-- C10: splitting a chunk that ends in a newline produces a trailing empty
string that is treated as a line like any other.  For the operation loop:
if the classifier draws no verdict on the real lines, the final empty line
is logged and handed to the classifier — the operation's outcome after the
chunk is exactly what the classifier answers on the empty string (pending if
it makes no call, settled with its first call otherwise).  For the readiness
scan: the empty line is likewise logged (and, containing no signature,
leaves readiness untouched). -/
theorem trailing_newline_empty_line_classified {T E : Type} (s : List Char)
    (w : World T E) (os : OpState T E) (h : ProcHandle)
    (hproc : w.mgr.mplayerProc = some h)
    (hstdout : h.stdoutListeners = [.opData])
    (hop : w.op = some os) (hpend : os.promise = none)
    (hall : ∀ l ∈ jsSplitLines (String.mk s), os.classify l = []) :
    jsSplitLines (String.mk (s ++ ['\n']))
        = jsSplitLines (String.mk s) ++ [""]
      ∧ (os.classify "" = [] →
          (deliverStdoutData (String.mk (s ++ ['\n'])) w).mgr.logLines
              = w.mgr.logLines
                  ++ (jsSplitLines (String.mk s) ++ [""]).map
                      (fun l => "data received: " ++ l)
            ∧ (deliverStdoutData (String.mk (s ++ ['\n'])) w).op = some os)
      ∧ (∀ (v : Verdict T E) (calls : List (Verdict T E)),
          os.classify "" = v :: calls →
            (deliverStdoutData (String.mk (s ++ ['\n'])) w).op
              = some { os with
                  promise := some (verdictOutcome v)
                  timerArmed := false })
      ∧ (∀ (w3 : World T E) (h3 : ProcHandle),
          w3.mgr.mplayerProc = some h3 → h3.stdoutListeners = [.readyData] →
          (∀ l ∈ jsSplitLines (String.mk s),
            containsSub l "CPLAYER: MPlayer" = false) →
          (deliverStdoutData (String.mk (s ++ ['\n'])) w3).mgr.logLines
              = w3.mgr.logLines
                  ++ (jsSplitLines (String.mk s) ++ [""]).map
                      (fun l => "data received: " ++ l)
            ∧ (deliverStdoutData (String.mk (s ++ ['\n'])) w3).mgr.ready
                = w3.mgr.ready) := by
  have hsplit := jsSplitLines_append_newline s
  have hd : deliverStdoutData (String.mk (s ++ ['\n'])) w
      = opDataLoop os.classify (jsSplitLines (String.mk (s ++ ['\n']))) w := by
    unfold deliverStdoutData
    rw [hproc]
    simp only [hstdout, List.foldl_cons, List.foldl_nil, runDataListener, hop]
  refine ⟨hsplit, ?_, ?_, ?_⟩
  · intro hempty
    have hall2 : ∀ l ∈ jsSplitLines (String.mk (s ++ ['\n'])),
        os.classify l = [] := by
      rw [hsplit]
      intro l hl
      rcases List.mem_append.mp hl with hl2 | hl2
      · exact hall l hl2
      · simp only [List.mem_singleton] at hl2
        rw [hl2, hempty]
    rw [hd, opDataLoop_all_no_verdict os.classify _ w hall2]
    rw [hsplit]
    simp [hop]
  · intro v calls hempty
    rw [hd, hsplit,
      opDataLoop_no_verdict_prefix os.classify (jsSplitLines (String.mk s))
        [""] w hall,
      opDataLoop_verdict_head os.classify "" [] _ v calls hempty]
    have hop1 : (logW ("data received: " ++ "")
        (logAll (jsSplitLines (String.mk s)) w)).op = some os := by simp [hop]
    have hset : (settleOpCalls (v :: calls) (logW ("data received: " ++ "")
        (logAll (jsSplitLines (String.mk s)) w))).op
          = some { os with promise := some (verdictOutcome v) } := by
      rw [settleOpCalls_op _ _ os hop1, hpend]
      simp [foldl_settleFirst_some]
    rw [opCleanup_op _ _ (hset.trans (by rfl))]
  · intro w3 h3 hproc3 hstdout3 hno
    have hd3 : deliverStdoutData (String.mk (s ++ ['\n'])) w3
        = readyScanLoop (jsSplitLines (String.mk (s ++ ['\n']))) w3 := by
      unfold deliverStdoutData
      rw [hproc3]
      simp only [hstdout3, List.foldl_cons, List.foldl_nil, runDataListener]
    have hno2 : ∀ l ∈ jsSplitLines (String.mk (s ++ ['\n'])),
        containsSub l "CPLAYER: MPlayer" = false := by
      rw [hsplit]
      intro l hl
      rcases List.mem_append.mp hl with hl2 | hl2
      · exact hno l hl2
      · simp only [List.mem_singleton] at hl2
        rw [hl2]
        rfl
    rw [hd3, readyScanLoop_no_signature _ w3 hno2, hsplit]
    simp

/-- A classifier that resolves (with `7`) exactly on an empty line. -/
def emptyLineClassifier : Classifier Nat String := fun line =>
  if line = "" then [.resolveV 7] else []

/-- An in-flight operation with the empty-line classifier (no command
emitted). -/
def emptyProbeWorld : World Nat String :=
  (doOperationBody emptyLineClassifier 2000 [] idleReadyWorld).1

/-- The handle of `emptyProbeWorld`. -/
def emptyProbeHandle : ProcHandle :=
  { idleReadyHandle with
      stdoutListeners := [.opData]
      stderrListeners := [.opData]
      exitListeners := [.procCompletionExit, .opExit]
      errorListeners := [.procCompletionError, .opError] }

/-- Witness for C10: the chunk `A\n` resolves the empty-line classifier with
`7` (so the classifier was invoked on the trailing empty string), and on a
freshly spawned world the readiness scan logs the trailing empty line. -/
theorem trailing_newline_empty_line_classified_witness :
    (deliverStdoutData (String.mk ("A".data ++ ['\n'])) emptyProbeWorld).op
        = some { classify := emptyLineClassifier
                 promise := some (verdictOutcome (.resolveV 7))
                 timerArmed := false }
      ∧ (deliverStdoutData (String.mk ("A".data ++ ['\n'])) spawnedWorld).mgr.logLines
          = spawnedWorld.mgr.logLines
              ++ (jsSplitLines (String.mk "A".data) ++ [""]).map
                  (fun l => "data received: " ++ l) := by
  have hall : ∀ l ∈ jsSplitLines (String.mk "A".data),
      emptyLineClassifier l = [] := by
    intro l hl
    simp only [show jsSplitLines (String.mk "A".data) = ["A"] from rfl,
      List.mem_singleton] at hl
    subst hl
    rfl
  have h10 := trailing_newline_empty_line_classified "A".data emptyProbeWorld
    { classify := emptyLineClassifier, promise := none, timerArmed := true }
    emptyProbeHandle rfl rfl rfl rfl hall
  refine ⟨h10.2.2.1 (.resolveV 7) [] rfl, ?_⟩
  have h11 := trailing_newline_empty_line_classified "A".data emptyProbeWorld
    { classify := emptyLineClassifier, promise := none, timerArmed := true }
    emptyProbeHandle rfl rfl rfl rfl hall
  refine (h11.2.2.2 spawnedWorld (freshHandle 1) rfl rfl ?_).1
  intro l hl
  simp only [show jsSplitLines (String.mk "A".data) = ["A"] from rfl,
    List.mem_singleton] at hl
  subst hl
  rfl

/-! ### C6: the readiness/handle invariant -/

/-- The supervisor invariant: the readiness flag is `true` only while a
process handle is present, and any handle the supervisor retains is alive
(a dead handle is never kept — exit/error delivery clears it in the same
atomic step). -/
def SupervisorInv {T E : Type} (w : World T E) : Prop :=
  (w.mgr.ready = true → w.mgr.mplayerProc.isSome = true)
    ∧ (∀ h, w.mgr.mplayerProc = some h → h.alive = true)

/-- One external step of the manager: an event delivery, a timer firing, or
one of the public entry points running. -/
inductive ManagerStep {T E : Type} : World T E → World T E → Prop where
  | stdoutData (chunk : String) (w : World T E) :
      ManagerStep w (deliverStdoutData chunk w)
  | stderrData (chunk : String) (w : World T E) :
      ManagerStep w (deliverStderrData chunk w)
  | exitEvent (code : Int) (signal : String) (w : World T E) :
      ManagerStep w (deliverExit code signal w)
  | errorEvent (err : String) (w : World T E) :
      ManagerStep w (deliverError err w)
  | timerFires (w : World T E) : ManagerStep w (opOnTimeout w)
  | shutdownStep (code : Int) (signal : String) (w : World T E) :
      ManagerStep w (shutdownCall code signal w)
  | readyStep (newId : Nat) (code : Int) (signal : String) (w : World T E) :
      ManagerStep w (readyMPlayerCall newId code signal w)
  | operationBody (cl : Classifier T E) (timeout : Nat)
      (cmds : List (List String)) (w : World T E) :
      ManagerStep w (doOperationBody cl timeout cmds w).1

theorem inv_of_mgr_eq {T E : Type} {w w2 : World T E} (hm : w2.mgr = w.mgr)
    (hI : SupervisorInv w) : SupervisorInv w2 := by
  unfold SupervisorInv
  rw [hm]
  exact hI

theorem removeStdoutListener_proc {T E : Type} (t : ListenerTag)
    (w : World T E) :
    (removeStdoutListener t w).mgr.mplayerProc
      = w.mgr.mplayerProc.map
          (fun h => { h with stdoutListeners := h.stdoutListeners.erase t }) := by
  unfold removeStdoutListener
  cases hw : w.mgr.mplayerProc <;> simp [hw]

theorem removeExitListener_proc {T E : Type} (t : ListenerTag)
    (w : World T E) :
    (removeExitListener t w).mgr.mplayerProc
      = w.mgr.mplayerProc.map
          (fun h => { h with exitListeners := h.exitListeners.erase t }) := by
  unfold removeExitListener
  cases hw : w.mgr.mplayerProc <;> simp [hw]

theorem removeErrorListener_proc {T E : Type} (t : ListenerTag)
    (w : World T E) :
    (removeErrorListener t w).mgr.mplayerProc
      = w.mgr.mplayerProc.map
          (fun h => { h with errorListeners := h.errorListeners.erase t }) := by
  unfold removeErrorListener
  cases hw : w.mgr.mplayerProc <;> simp [hw]

theorem opCleanup_proc_map {T E : Type} (w : World T E) :
    (opCleanup w).mgr.mplayerProc
      = w.mgr.mplayerProc.map
          (fun h => { h with
            stdoutListeners := h.stdoutListeners.erase .opData
            stderrListeners := h.stderrListeners.erase .opData
            exitListeners := h.exitListeners.erase .opExit
            errorListeners := h.errorListeners.erase .opError }) := by
  unfold opCleanup
  cases hw : w.mgr.mplayerProc <;> cases ho : w.op <;> simp [hw, ho]

/-- The readiness scan keeps the handle present and keeps whatever liveness
it had: it only removes listeners and raises the readiness flag. -/
theorem readyScanLoop_procAlive {T E : Type} (lines : List String)
    (w : World T E) :
    ((readyScanLoop lines w).mgr.mplayerProc.isSome
        = w.mgr.mplayerProc.isSome)
      ∧ ((∀ h, w.mgr.mplayerProc = some h → h.alive = true) →
          ∀ h2, (readyScanLoop lines w).mgr.mplayerProc = some h2 →
            h2.alive = true) := by
  induction lines generalizing w with
  | nil => exact ⟨rfl, fun ha => ha⟩
  | cons l ls ih =>
    by_cases hsig : containsSub l "CPLAYER: MPlayer" = true
    · constructor
      · simp [readyScanLoop, hsig, removeStdoutListener_proc,
          removeExitListener_proc, removeErrorListener_proc]
      · intro ha h2 hh2
        simp only [readyScanLoop, hsig, if_true] at hh2
        simp only [removeStdoutListener_proc, removeExitListener_proc,
          removeErrorListener_proc, logW_mplayerProc, Option.map_eq_some'] at hh2
        obtain ⟨h1, hh1, heq⟩ := hh2
        obtain ⟨h0, hh0, heq0⟩ := hh1
        obtain ⟨hb, hhb, heqb⟩ := hh0
        have := ha hb hhb
        rw [← heq, ← heq0, ← heqb]
        simpa using this
    · have hsig2 : containsSub l "CPLAYER: MPlayer" = false := by
        simpa using hsig
      simp only [readyScanLoop, hsig2, Bool.false_eq_true, if_false]
      exact ih (logW ("data received: " ++ l) w)

/-- The operation data loop keeps the handle present and keeps its
liveness: it only logs, settles the promise and removes listeners. -/
theorem opDataLoop_procAlive {T E : Type} (cl : Classifier T E)
    (lines : List String) (w : World T E) :
    ((opDataLoop cl lines w).mgr.mplayerProc.isSome
        = w.mgr.mplayerProc.isSome)
      ∧ ((∀ h, w.mgr.mplayerProc = some h → h.alive = true) →
          ∀ h2, (opDataLoop cl lines w).mgr.mplayerProc = some h2 →
            h2.alive = true) := by
  induction lines generalizing w with
  | nil => exact ⟨rfl, fun ha => ha⟩
  | cons l ls ih =>
    cases hcl : cl l with
    | nil =>
      simp only [opDataLoop, hcl]
      exact ih (logW ("data received: " ++ l) w)
    | cons v calls =>
      simp only [opDataLoop, hcl]
      constructor
      · simp [opCleanup_proc_map]
      · intro ha h2 hh2
        simp only [opCleanup_proc_map, settleOpCalls_mgr, logW_mplayerProc,
          Option.map_eq_some'] at hh2
        obtain ⟨h1, hh1, heq⟩ := hh2
        have := ha h1 hh1
        rw [← heq]
        simpa using this

theorem runDataListener_procAlive {T E : Type} (chunk : String)
    (t : ListenerTag) (w : World T E) :
    ((runDataListener chunk t w).mgr.mplayerProc.isSome
        = w.mgr.mplayerProc.isSome)
      ∧ ((∀ h, w.mgr.mplayerProc = some h → h.alive = true) →
          ∀ h2, (runDataListener chunk t w).mgr.mplayerProc = some h2 →
            h2.alive = true) := by
  cases t with
  | readyData => exact readyScanLoop_procAlive (jsSplitLines chunk) w
  | opData =>
    cases ho : w.op with
    | none =>
      simp only [runDataListener, ho]
      exact ⟨by simp, fun ha => ha⟩
    | some os =>
      simp only [runDataListener, ho]
      exact opDataLoop_procAlive os.classify (jsSplitLines chunk) w
  | opExit => exact ⟨rfl, fun ha => ha⟩
  | opError => exact ⟨rfl, fun ha => ha⟩
  | readyExit => exact ⟨rfl, fun ha => ha⟩
  | readyError => exact ⟨rfl, fun ha => ha⟩
  | procCompletionExit => exact ⟨rfl, fun ha => ha⟩
  | procCompletionError => exact ⟨rfl, fun ha => ha⟩
  | shutdownExit => exact ⟨rfl, fun ha => ha⟩
  | shutdownError => exact ⟨rfl, fun ha => ha⟩

theorem foldData_procAlive {T E : Type} (chunk : String)
    (tags : List ListenerTag) (w : World T E) :
    ((tags.foldl (fun w2 t => runDataListener chunk t w2) w).mgr.mplayerProc.isSome
        = w.mgr.mplayerProc.isSome)
      ∧ ((∀ h, w.mgr.mplayerProc = some h → h.alive = true) →
          ∀ h2, (tags.foldl (fun w2 t => runDataListener chunk t w2)
              w).mgr.mplayerProc = some h2 → h2.alive = true) := by
  induction tags generalizing w with
  | nil => exact ⟨rfl, fun ha => ha⟩
  | cons t ts ih =>
    simp only [List.foldl_cons]
    obtain ⟨h1, h2⟩ := runDataListener_procAlive chunk t w
    obtain ⟨h3, h4⟩ := ih (runDataListener chunk t w)
    refine ⟨h3.trans h1, fun ha => h4 ?_⟩
    intro h hh
    exact h2 ha h hh

theorem deliverStdoutData_inv {T E : Type} (chunk : String) (w : World T E)
    (hI : SupervisorInv w) : SupervisorInv (deliverStdoutData chunk w) := by
  cases hw : w.mgr.mplayerProc with
  | none =>
    unfold deliverStdoutData
    rw [hw]
    exact hI
  | some h =>
    unfold deliverStdoutData
    rw [hw]
    obtain ⟨h1, h2⟩ := foldData_procAlive chunk h.stdoutListeners w
    constructor
    · intro _
      rw [h1, hw]
      rfl
    · exact h2 hI.2

theorem deliverStderrData_inv {T E : Type} (chunk : String) (w : World T E)
    (hI : SupervisorInv w) : SupervisorInv (deliverStderrData chunk w) := by
  cases hw : w.mgr.mplayerProc with
  | none =>
    unfold deliverStderrData
    rw [hw]
    exact hI
  | some h =>
    unfold deliverStderrData
    rw [hw]
    obtain ⟨h1, h2⟩ := foldData_procAlive chunk h.stderrListeners w
    constructor
    · intro _
      rw [h1, hw]
      rfl
    · exact h2 hI.2

theorem runExitListener_inv {T E : Type} (code : Int) (signal : String)
    (t : ListenerTag) (w : World T E) (hI : SupervisorInv w) :
    SupervisorInv (runExitListener code signal t w) := by
  cases t with
  | procCompletionExit =>
    constructor
    · intro hr
      simp [runExitListener] at hr
    · intro h hh
      simp [runExitListener] at hh
  | readyExit => exact hI
  | opExit => exact inv_of_mgr_eq (opOnExit_mgr code signal w) hI
  | shutdownExit => exact hI
  | opData => exact hI
  | opError => exact hI
  | readyData => exact hI
  | readyError => exact hI
  | procCompletionError => exact hI
  | shutdownError => exact hI

theorem runErrorListener_inv {T E : Type} (err : String) (t : ListenerTag)
    (w : World T E) (hI : SupervisorInv w) :
    SupervisorInv (runErrorListener err t w) := by
  cases t with
  | procCompletionError =>
    constructor
    · intro hr
      simp [runErrorListener] at hr
    · intro h hh
      simp [runErrorListener] at hh
  | readyError => exact hI
  | opError => exact inv_of_mgr_eq (opOnError_mgr err w) hI
  | shutdownError => exact hI
  | opData => exact hI
  | opExit => exact hI
  | readyData => exact hI
  | readyExit => exact hI
  | procCompletionExit => exact hI
  | shutdownExit => exact hI

theorem deliverExit_inv {T E : Type} (code : Int) (signal : String)
    (w : World T E) (hI : SupervisorInv w) :
    SupervisorInv (deliverExit code signal w) := by
  cases hw : w.mgr.mplayerProc with
  | none =>
    unfold deliverExit
    rw [hw]
    exact hI
  | some h =>
    unfold deliverExit
    rw [hw]
    have : ∀ (tags : List ListenerTag) (w2 : World T E), SupervisorInv w2 →
        SupervisorInv (tags.foldl
          (fun w3 t => runExitListener code signal t w3) w2) := by
      intro tags
      induction tags with
      | nil => exact fun w2 h2 => h2
      | cons t ts ih =>
        intro w2 h2
        exact ih _ (runExitListener_inv code signal t w2 h2)
    exact this h.exitListeners w hI

theorem deliverError_inv {T E : Type} (err : String) (w : World T E)
    (hI : SupervisorInv w) : SupervisorInv (deliverError err w) := by
  cases hw : w.mgr.mplayerProc with
  | none =>
    unfold deliverError
    rw [hw]
    exact hI
  | some h =>
    unfold deliverError
    rw [hw]
    have : ∀ (tags : List ListenerTag) (w2 : World T E), SupervisorInv w2 →
        SupervisorInv (tags.foldl (fun w3 t => runErrorListener err t w3) w2) := by
      intro tags
      induction tags with
      | nil => exact fun w2 h2 => h2
      | cons t ts ih =>
        intro w2 h2
        exact ih _ (runErrorListener_inv err t w2 h2)
    exact this h.errorListeners w hI

theorem inv_of_eq {T E : Type} {w w2 : World T E}
    (hp : w2.mgr.mplayerProc = w.mgr.mplayerProc)
    (hr : w2.mgr.ready = w.mgr.ready) (hI : SupervisorInv w) :
    SupervisorInv w2 := by
  unfold SupervisorInv
  rw [hp, hr]
  exact hI

theorem spawnStep_inv {T E : Type} (newId : Nat) (w : World T E) :
    SupervisorInv (spawnStep newId w) := by
  constructor
  · intro _
    rfl
  · intro h hh
    have : freshHandle newId = h := by simpa [spawnStep] using hh
    rw [← this]
    rfl

theorem readyMPlayerCall_inv {T E : Type} (newId : Nat) (code : Int)
    (signal : String) (w : World T E) :
    SupervisorInv (readyMPlayerCall newId code signal w) := by
  unfold readyMPlayerCall
  exact spawnStep_inv newId _

theorem shutdownCall_inv {T E : Type} (code : Int) (signal : String)
    (w : World T E) (hI : SupervisorInv w) :
    SupervisorInv (shutdownCall code signal w) := by
  unfold shutdownCall
  cases hw : w.mgr.mplayerProc with
  | none =>
    simp only [hw]
    exact inv_of_eq (by simp) (by simp) hI
  | some h =>
    simp only [hw]
    apply deliverExit_inv
    constructor
    · intro _
      rfl
    · intro h2 hh2
      have hali := hI.2 h hw
      have : ({ h with
          exitListeners := h.exitListeners ++ [ListenerTag.shutdownExit]
          errorListeners := h.errorListeners ++ [ListenerTag.shutdownError] }
            : ProcHandle) = h2 := by simpa using hh2
      rw [← this]
      simpa using hali

theorem execRun_inv {T E : Type} (args : List String) (w : World T E)
    (hI : SupervisorInv w) : SupervisorInv (execRun args w) := by
  unfold execRun execCmd
  simp only [logW_mplayerProc]
  cases hw : w.mgr.mplayerProc with
  | none =>
    simp only [hw]
    exact inv_of_eq (by simp) (by simp) hI
  | some h =>
    simp only [hw]
    constructor
    · intro _
      rfl
    · intro h2 hh2
      have hali := hI.2 h hw
      have : ({ h with stdinData := h.stdinData
          ++ [String.intercalate " " args ++ "\n"] } : ProcHandle) = h2 := by
        simpa using hh2
      rw [← this]
      simpa using hali

theorem attachOpListeners_inv {T E : Type} (w : World T E)
    (hI : SupervisorInv w) : SupervisorInv (attachOpListeners w) := by
  unfold attachOpListeners
  cases hw : w.mgr.mplayerProc with
  | none =>
    simp only [hw]
    exact hI
  | some h =>
    simp only [hw]
    constructor
    · intro _
      rfl
    · intro h2 hh2
      have hali := hI.2 h hw
      have : ({ h with
          stdoutListeners := h.stdoutListeners ++ [ListenerTag.opData]
          stderrListeners := h.stderrListeners ++ [ListenerTag.opData]
          exitListeners := h.exitListeners ++ [ListenerTag.opExit]
          errorListeners := h.errorListeners ++ [ListenerTag.opError] }
            : ProcHandle) = h2 := by simpa using hh2
      rw [← this]
      simpa using hali

theorem foldExec_inv {T E : Type} (cmds : List (List String)) (w : World T E)
    (hI : SupervisorInv w) :
    SupervisorInv (cmds.foldl (fun w2 args => execRun args w2) w) := by
  induction cmds generalizing w with
  | nil => exact hI
  | cons c cs ih => exact ih (execRun c w) (execRun_inv c w hI)

theorem doOperationBody_inv {T E : Type} (cl : Classifier T E) (timeout : Nat)
    (cmds : List (List String)) (w : World T E) (hI : SupervisorInv w) :
    SupervisorInv (doOperationBody cl timeout cmds w).1 := by
  unfold doOperationBody
  exact foldExec_inv cmds _
    (attachOpListeners_inv _ (inv_of_eq rfl rfl hI))

theorem runExitListener_keeps_cleared {T E : Type} (code : Int)
    (signal : String) (t : ListenerTag) (w : World T E)
    (hp : w.mgr.mplayerProc = none) (hr : w.mgr.ready = false) :
    (runExitListener code signal t w).mgr.mplayerProc = none
      ∧ (runExitListener code signal t w).mgr.ready = false := by
  cases t <;> simp [runExitListener, hp, hr]

theorem runErrorListener_keeps_cleared {T E : Type} (err : String)
    (t : ListenerTag) (w : World T E)
    (hp : w.mgr.mplayerProc = none) (hr : w.mgr.ready = false) :
    (runErrorListener err t w).mgr.mplayerProc = none
      ∧ (runErrorListener err t w).mgr.ready = false := by
  cases t <;> simp [runErrorListener, hp, hr]

theorem foldExit_keeps_cleared {T E : Type} (code : Int) (signal : String)
    (tags : List ListenerTag) (w : World T E)
    (hp : w.mgr.mplayerProc = none) (hr : w.mgr.ready = false) :
    (tags.foldl (fun w2 t => runExitListener code signal t w2)
        w).mgr.mplayerProc = none
      ∧ (tags.foldl (fun w2 t => runExitListener code signal t w2)
          w).mgr.ready = false := by
  induction tags generalizing w with
  | nil => exact ⟨hp, hr⟩
  | cons t ts ih =>
    obtain ⟨hp2, hr2⟩ := runExitListener_keeps_cleared code signal t w hp hr
    exact ih (runExitListener code signal t w) hp2 hr2

theorem foldError_keeps_cleared {T E : Type} (err : String)
    (tags : List ListenerTag) (w : World T E)
    (hp : w.mgr.mplayerProc = none) (hr : w.mgr.ready = false) :
    (tags.foldl (fun w2 t => runErrorListener err t w2)
        w).mgr.mplayerProc = none
      ∧ (tags.foldl (fun w2 t => runErrorListener err t w2)
          w).mgr.ready = false := by
  induction tags generalizing w with
  | nil => exact ⟨hp, hr⟩
  | cons t ts ih =>
    obtain ⟨hp2, hr2⟩ := runErrorListener_keeps_cleared err t w hp hr
    exact ih (runErrorListener err t w) hp2 hr2

/-- C6: (i) every step of the manager — event deliveries, the timer, and the
public entry points — preserves the supervisor invariant that `ready` is
`true` only while a live handle is present; (ii) every `exit` and every
`error` transition of a handle carrying the persistent `spawnMPlayer`
completion listener (registered first at spawn and never removed while the
process lives) clears the handle and the readiness flag together, so no
caller can observe `ready = true` with a dead or absent handle. -/
theorem supervisor_state_invariant {T E : Type} :
    (∀ w w2 : World T E, ManagerStep w w2 → SupervisorInv w → SupervisorInv w2)
      ∧ (∀ (w : World T E) (h : ProcHandle) (rest : List ListenerTag)
          (code : Int) (signal : String),
          w.mgr.mplayerProc = some h →
          h.exitListeners = .procCompletionExit :: rest →
          (deliverExit code signal w).mgr.mplayerProc = none
            ∧ (deliverExit code signal w).mgr.ready = false)
      ∧ (∀ (w : World T E) (h : ProcHandle) (rest : List ListenerTag)
          (err : String),
          w.mgr.mplayerProc = some h →
          h.errorListeners = .procCompletionError :: rest →
          (deliverError err w).mgr.mplayerProc = none
            ∧ (deliverError err w).mgr.ready = false) := by
  refine ⟨?_, ?_, ?_⟩
  · intro w w2 hstep hI
    cases hstep with
    | stdoutData chunk w => exact deliverStdoutData_inv chunk w hI
    | stderrData chunk w => exact deliverStderrData_inv chunk w hI
    | exitEvent code signal w => exact deliverExit_inv code signal w hI
    | errorEvent err w => exact deliverError_inv err w hI
    | timerFires w => exact inv_of_mgr_eq (opOnTimeout_mgr w) hI
    | shutdownStep code signal w => exact shutdownCall_inv code signal w hI
    | readyStep newId code signal w =>
      exact readyMPlayerCall_inv newId code signal w
    | operationBody cl timeout cmds w =>
      exact doOperationBody_inv cl timeout cmds w hI
  · intro w h rest code signal hproc hexit
    unfold deliverExit
    rw [hproc]
    simp only [hexit, List.foldl_cons]
    exact foldExit_keeps_cleared code signal rest _ (by simp [runExitListener])
      (by simp [runExitListener])
  · intro w h rest err hproc herror
    unfold deliverError
    rw [hproc]
    simp only [herror, List.foldl_cons]
    exact foldError_keeps_cleared err rest _ (by simp [runErrorListener])
      (by simp [runErrorListener])

/-- Witness for C6: the invariant holds after the exit of the idle ready
process, and that exit clears the handle and readiness flag together. -/
theorem supervisor_state_invariant_witness :
    SupervisorInv (deliverExit (T := Nat) (E := String) 0 "SIGTERM" idleReadyWorld)
      ∧ (deliverExit (T := Nat) (E := String) 0 "SIGTERM"
          idleReadyWorld).mgr.mplayerProc = none
      ∧ (deliverExit (T := Nat) (E := String) 0 "SIGTERM"
          idleReadyWorld).mgr.ready = false := by
  have hI : SupervisorInv idleReadyWorld := by
    constructor
    · intro _
      rfl
    · intro h hh
      have : idleReadyHandle = h := by
        simpa [idleReadyWorld] using hh
      rw [← this]
      rfl
  refine ⟨supervisor_state_invariant.1 idleReadyWorld _
      (ManagerStep.exitEvent 0 "SIGTERM" idleReadyWorld) hI, ?_⟩
  exact supervisor_state_invariant.2.1 idleReadyWorld idleReadyHandle []
    0 "SIGTERM" rfl rfl
